import Mathlib

/-!
Verification of the evergreen task-dispatch and notification core.

The development shallowly embeds the dependency engine, the task lifecycle
helpers, the build-trigger notification fan-out, the jira summary builder and
the notification store lookup.  The files `model/task/task.go`,
`trigger/build.go` and `trigger/trigger.go` are not part of the source tree
(only their tests are), so those operations are modelled from the
specification and checked against the expected values recorded in the tests.
Strings are modelled character-wise (Go byte strings are ASCII in every case
exercised here), timestamps as natural numbers with `0` meaning unset, and
fallible operations return `Except` or an explicit error component.
-/

namespace Evergreen

/-! ## Status constants (package `evergreen` globals, referenced by the tests) -/

def TaskStarted : String := "started"

def TaskUnstarted : String := "unstarted"

def TaskUndispatched : String := "undispatched"

def TaskDispatched : String := "dispatched"

def TaskFailed : String := "failed"

def TaskSucceeded : String := "success"

def TaskInactive : String := "inactive"

def TaskSystemFailed : String := "system-failed"

/-- Value of the `evergreen.TaskTimedOut` constant; the constants file is not
in the source tree, only its use in `trigger/task_jira.go`.  Its exact literal
is irrelevant to the claims below, only that it is distinct from the other
task statuses. -/
def TaskTimedOut : String := "task-timed-out"

def TaskSetupFailed : String := "setup-failed"

def TestFailedStatus : String := "fail"

def CommandTypeSystem : String := "system"

def CommandTypeSetup : String := "setup"

/-- Wildcard dependency status `task.AllStatuses` (used as `"*"` in
`depends_on` entries, see `task_test.go`). -/
def AllStatuses : String := "*"

def BuildCreated : String := "created"

def BuildStarted : String := "started"

def BuildFailed : String := "failed"

def BuildSucceeded : String := "success"

/-! ## Task data model

Modelled from the spec: section 3 of the spec lists the `Task` document
fields; `model/task/task.go` is not in the source tree.  Only the fields the
claims exercise are carried. -/

/-- A `depends_on` entry: the referenced task id and the required status
predicate (`"success"`, `"failed"`, `"*"` or `""`). -/
structure Dependency where
  taskId : String
  status : String
deriving DecidableEq, Repr

/-- The task document restricted to the fields used by the dependency engine,
priority propagation and scheduling claims. -/
structure Task where
  id : String
  status : String := ""
  dependsOn : List Dependency := []
  overrideDependencies : Bool := false
  activated : Bool := false
  priority : Int := 0
  scheduledTime : Nat := 0
deriving DecidableEq, Repr

/-- Lookup of a task by id in a list standing for the `tasks` collection (or
for a caller-owned dependency cache). -/
def lookupTask (store : List Task) (id : String) : Option Task :=
  store.find? (fun u => u.id == id)

/-- A status is finished when the task is in one of the terminal states of the
spec's state machine (section 3). -/
def isFinishedStatus (s : String) : Bool :=
  s == TaskSucceeded || s == TaskFailed || s == TaskSystemFailed || s == TaskSetupFailed

/-- Modelled from the spec: the dependency predicate matching of
`DependenciesMet` (spec section 4.1): `"success"` means the referenced task
succeeded, `"failed"` means it failed, `"*"` accepts any finished status and
`""` defaults to `"success"`. -/
def satisfiesDependency (required actual : String) : Bool :=
  if required == "" || required == TaskSucceeded then actual == TaskSucceeded
  else if required == TaskFailed then actual == TaskFailed
  else if required == AllStatuses then isFinishedStatus actual
  else false

/-- Modelled from the spec: the per-entry loop of `DependenciesMet`.  Each
entry is resolved from the cache when present and otherwise fetched from the
store and inserted into the cache; an entry resolving nowhere is a `NotFound`
error (spec section 7). -/
def dependenciesMetList (store : List Task) :
    List Task → List Dependency → Except String (Bool × List Task)
  | cache, [] => .ok (true, cache)
  | cache, d :: ds =>
    match lookupTask cache d.taskId with
    | some u =>
      if satisfiesDependency d.status u.status then dependenciesMetList store cache ds
      else .ok (false, cache)
    | none =>
      match lookupTask store d.taskId with
      | none => .error ("dependency task not found: " ++ d.taskId)
      | some u =>
        if satisfiesDependency d.status u.status then
          dependenciesMetList store (cache ++ [u]) ds
        else .ok (false, cache ++ [u])

/-- Modelled from the spec: `Task.DependenciesMet(t, cache)` (spec section
4.1).  True immediately when there are no dependencies or
`override_dependencies` is set; otherwise every entry must match its
predicate.  The returned list is the updated cache; `.error` stands for the Go
`(false, err)` return. -/
def dependenciesMet (store : List Task) (t : Task) (cache : List Task) :
    Except String (Bool × List Task) :=
  if t.dependsOn.isEmpty || t.overrideDependencies then .ok (true, cache)
  else dependenciesMetList store cache t.dependsOn

/-- Modelled from the spec: the per-entry loop of `AllDependenciesSatisfied`,
which only ever consults the caller-supplied cache. -/
def allDependenciesSatisfiedList (cache : List Task) :
    List Dependency → Bool × Option String
  | [] => (true, none)
  | d :: ds =>
    match lookupTask cache d.taskId with
    | none => (false, some ("cannot resolve task " ++ d.taskId))
    | some u =>
      if satisfiesDependency d.status u.status then allDependenciesSatisfiedList cache ds
      else (false, none)

/-- Modelled from the spec: `Task.AllDependenciesSatisfied(t, cache)` (spec
section 4.1).  The same predicate as `DependenciesMet` but pure in-memory: it
never touches the store and fails with an error when the cache is empty while
`depends_on` is non-empty.  The pair mirrors the Go `(bool, error)` return. -/
def allDependenciesSatisfied (t : Task) (cache : List Task) : Bool × Option String :=
  if t.dependsOn.isEmpty then (true, none)
  else if cache.isEmpty then (false, some ("dependency cache is empty"))
  else allDependenciesSatisfiedList cache t.dependsOn

/-! ## Concrete fixtures from `task_test.go` -/

/-- The five dependency entries `depTaskIds` of `task_test.go`. -/
def depTaskIds : List Dependency :=
  [⟨"td1", TaskSucceeded⟩, ⟨"td2", TaskSucceeded⟩, ⟨"td3", ""⟩,
   ⟨"td4", TaskFailed⟩, ⟨"td5", AllStatuses⟩]

/-- The dependency tasks after `updateTestDepTasks`: `td1..td3` succeeded,
`td4, td5` failed. -/
def depStore : List Task :=
  [{ id := "td1", status := TaskSucceeded }, { id := "td2", status := TaskSucceeded },
   { id := "td3", status := TaskSucceeded }, { id := "td4", status := TaskFailed },
   { id := "td5", status := TaskFailed }]

/-- The task `t1` of `TestDependenciesMet` with all five dependencies. -/
def depTask : Task := { id := "t1", dependsOn := depTaskIds }

/-! ## Priority propagation (`SetPriority`) -/

/-- Direct dependency ids of the task with the given id, empty when the id
does not resolve. -/
def depIdsOf (store : List Task) (id : String) : List String :=
  match lookupTask store id with
  | some u => u.dependsOn.map (fun d => d.taskId)
  | none => []

/-- One expansion step of the dependency closure. -/
def closureStep (store : List Task) (ids : List String) : List String :=
  (ids ++ ids.flatMap (depIdsOf store)).dedup

/-- Modelled from the spec: the transitive closure of `depends_on` reachable
from the given task (`getRecursiveDependencies`), computed by iterating the
one-step expansion to its fixpoint (`store.length` rounds always suffice). -/
def recursiveDeps (store : List Task) (id : String) : List String :=
  (closureStep store)^[store.length] (depIdsOf store id)

/-- Modelled from the spec: `Task.SetPriority(t, p, user)` (spec section 4.2).
The task itself always receives priority `p` (and is deactivated when
`p < 0`); when `p > 0` every task in the transitive closure of its
`depends_on` is raised to `p` when its current priority is lower; every other
task is untouched. -/
def setPriority (store : List Task) (tid : String) (p : Int) : List Task :=
  let closure := recursiveDeps store tid
  store.map (fun u =>
    if u.id == tid then
      { u with priority := p, activated := if p < 0 then false else u.activated }
    else if p > 0 && u.id ∈ closure && u.priority < p then { u with priority := p }
    else u)

/-- The six tasks of `TestTaskSetPriority`: `one → [two, three, four]`,
`three → five`, `four → five`, `two.priority = 5`, `six` unrelated. -/
def priorityStore : List Task :=
  [{ id := "one", dependsOn := [⟨"two", ""⟩, ⟨"three", ""⟩, ⟨"four", ""⟩], activated := true },
   { id := "two", priority := 5, activated := true },
   { id := "three", dependsOn := [⟨"five", ""⟩], activated := true },
   { id := "four", dependsOn := [⟨"five", ""⟩], activated := true },
   { id := "five", activated := true },
   { id := "six", activated := true }]

/-! ## Scheduled-time stamping (`SetTasksScheduledTime`) -/

/-- Modelled from the spec: `SetTasksScheduledTime(tasks, ts)` (spec section
4.2) as its effect on the `tasks` collection — every task among the given ids
whose `scheduled_time` is still the zero value receives `ts`; all others are
untouched. -/
def setTasksScheduledTime (store : List Task) (ids : List String) (ts : Nat) : List Task :=
  store.map (fun u =>
    if u.id ∈ ids && u.scheduledTime == 0 then { u with scheduledTime := ts } else u)

/-- The three tasks of `TestSetTasksScheduledTime`, all with unset
`scheduled_time`. -/
def schedStore : List Task :=
  [{ id := "t1" }, { id := "t2" }, { id := "t3" }]

/-! ## Build triggers and notification fan-out

Modelled from the spec: `trigger/build.go` and `trigger/trigger.go` are not in
the source tree; only `trigger/build_test.go` is.  The model follows spec
sections 4.4 and 4.5 and the trigger table (build `outcome` fires on
`data.status ∈ {succeeded, failed}`, `success` on `succeeded`, `failure` on
`failed`), with the deterministic notification id built from the event and
subscription. -/

structure Build where
  id : String
  status : String
deriving DecidableEq, Repr

structure Selector where
  type : String
  data : String
deriving DecidableEq, Repr

structure Subscription where
  id : String
  type : String
  trigger : String
  selectors : List Selector
deriving DecidableEq, Repr

structure BuildEventData where
  status : String
deriving DecidableEq, Repr

structure EventLogEntry where
  id : String
  resourceType : String
  eventType : String
  resourceId : String
  data : BuildEventData
deriving DecidableEq, Repr

def ResourceTypeBuild : String := "BUILD"

/-- Modelled from the spec: the build `outcome` trigger fires exactly when the
event data's status is succeeded or failed. -/
def buildOutcome (data : BuildEventData) (sub : Subscription) : Option String :=
  if data.status == BuildSucceeded || data.status == BuildFailed then some sub.id else none

/-- Modelled from the spec: the build `success` trigger fires exactly when the
event data's status is succeeded. -/
def buildSuccess (data : BuildEventData) (sub : Subscription) : Option String :=
  if data.status == BuildSucceeded then some sub.id else none

/-- Modelled from the spec: the build `failure` trigger fires exactly when the
event data's status is failed. -/
def buildFailure (data : BuildEventData) (sub : Subscription) : Option String :=
  if data.status == BuildFailed then some sub.id else none

/-- Modelled from the spec: dispatch on the trigger named by the
subscription; an unregistered trigger is skipped (produces nothing). -/
def runBuildTrigger (data : BuildEventData) (sub : Subscription) : Option String :=
  if sub.trigger == "outcome" then buildOutcome data sub
  else if sub.trigger == "success" then buildSuccess data sub
  else if sub.trigger == "failure" then buildFailure data sub
  else none

/-- Modelled from the spec: selector evaluation; the `"id"` selector matches
the event's resource id (the only selector type the build fixture uses). -/
def selectorMatches (e : EventLogEntry) (s : Selector) : Bool :=
  if s.type == "id" then s.data == e.resourceId else false

/-- Modelled from the spec: a subscription matches an event when its resource type agrees and all its
selectors match (spec section 4.3). -/
def subscriptionMatches (e : EventLogEntry) (sub : Subscription) : Bool :=
  sub.type == e.resourceType && sub.selectors.all (selectorMatches e)

/-- Modelled from the spec: the deterministic notification id derived from the
event id and the subscription id (spec section 4.5, step 6). -/
def notificationIdFor (eventId subId : String) : String :=
  eventId ++ "-" ++ subId

/-- Modelled from the spec: `NotificationsFromEvent(event)` for build events —
fetch the referenced build (failing when it is missing), select the
subscriptions matching the event, dispatch each one to its trigger and collect
the non-nil results as notification ids. -/
def notificationsFromEvent (builds : List Build) (subs : List Subscription)
    (e : EventLogEntry) : Except String (List String) :=
  match builds.find? (fun b => b.id == e.resourceId) with
  | none => .error ("build not found: " ++ e.resourceId)
  | some _ =>
    .ok (((subs.filter (subscriptionMatches e)).filterMap (fun sub =>
      runBuildTrigger e.data sub)).map (fun subId => notificationIdFor e.id subId))

/-- The three subscriptions of `buildSuite.SetupTest`, all selecting build id
`test`, for the triggers `outcome`, `success` and `failure`. -/
def buildSubs : List Subscription :=
  [{ id := "sub-outcome", type := ResourceTypeBuild, trigger := "outcome",
     selectors := [{ type := "id", data := "test" }] },
   { id := "sub-success", type := ResourceTypeBuild, trigger := "success",
     selectors := [{ type := "id", data := "test" }] },
   { id := "sub-failure", type := ResourceTypeBuild, trigger := "failure",
     selectors := [{ type := "id", data := "test" }] }]

/-- The build state-change event of `buildSuite` with the given data
status. -/
def buildEvent (s : String) : EventLogEntry :=
  { id := "event", resourceType := ResourceTypeBuild, eventType := "STATE_CHANGE",
    resourceId := "test", data := { status := s } }

/-! ## Notification store lookup (`model/notification/db.go`) -/

/-- The notification document restricted to the scalar fields of
`unmarshalNotification`; the polymorphic payload is irrelevant to the lookup
claim and is carried as its raw string form. -/
structure Notification where
  id : String
  payload : String := ""
  sentAt : Nat := 0
  error : String := ""
deriving DecidableEq, Repr

/-- Store-layer errors: `mgo.ErrNotFound` or any other failure. -/
inductive DbError where
  | notFound : DbError
  | other : String → DbError
deriving DecidableEq, Repr

/-- The `db.FindOneQ` call of `notification.Find`: with a healthy store it
returns the matching document or `ErrNotFound`; an injected fault models any
other store failure. -/
def findOneQ (store : List Notification) (fault : Option String) (id : String) :
    Except DbError Notification :=
  match fault with
  | some msg => .error (.other msg)
  | none =>
    match store.find? (fun n => n.id == id) with
    | some n => .ok n
    | none => .error .notFound

/-- Embedding of `notification.Find` (`model/notification/db.go` lines
116-125): `ErrNotFound` is swallowed into `(nil, nil)`; any other error is
returned together with the (zero-valued) notification pointer. -/
def notificationFind (store : List Notification) (fault : Option String) (id : String) :
    Option Notification × Option DbError :=
  match findOneQ store fault id with
  | .error .notFound => (none, none)
  | .error e => (some { id := "" }, some e)
  | .ok n => (some n, none)

/-! ## Jira summary builder (`trigger/task_jira.go`)

This part embeds the real source: `makeSpecificTaskStatus`,
`makeSummaryPrefix` (rendered here as `summaryPrefixOf`), `cleanTestName` and
`jiraBuilder.getSummary`.  Go strings are modelled character-wise; the Go
slice `Revision[0:8]`, which panics on a short string, is modelled as an
`Except` error. -/

structure JiraTestResult where
  status : String
  testFile : String
deriving DecidableEq, Repr

structure TaskEndDetail where
  type : String := ""
  timedOut : Bool := false
  description : String := ""
deriving DecidableEq, Repr

/-- The slice of `task.Task` that `getSummary` consults; `displayTaskName`
carries `DisplayTask.DisplayName` when the display-task back-reference is
non-nil. -/
structure JiraTask where
  id : String := ""
  displayName : String := ""
  status : String := ""
  details : TaskEndDetail := {}
  localTestResults : List JiraTestResult := []
  displayTaskName : Option String := none
deriving DecidableEq, Repr

structure JiraBuild where
  displayName : String
deriving DecidableEq, Repr

structure JiraProject where
  displayName : String
deriving DecidableEq, Repr

structure JiraVersion where
  revision : String
deriving DecidableEq, Repr

/-- The fields of `jiraTemplateData` that `getSummary` reads. -/
structure JiraTemplateData where
  task : JiraTask
  build : JiraBuild
  project : JiraProject
  version : JiraVersion
deriving DecidableEq, Repr

def jiraMaxTitleLength : Nat := 254

/-- Embedding of `makeSpecificTaskStatus` (`task_jira.go` lines 98-111): the
switch checks success first, then `Details.TimedOut`, then the system and
setup command types. -/
def makeSpecificTaskStatus (t : JiraTask) : String :=
  if t.status == TaskSucceeded then TaskSucceeded
  else if t.details.timedOut then TaskTimedOut
  else if t.details.type == CommandTypeSystem then TaskSystemFailed
  else if t.details.type == CommandTypeSetup then TaskSetupFailed
  else TaskFailed

/-- Embedding of `makeSummaryPrefix` (`task_jira.go` lines 113-131). -/
def summaryPrefixOf (t : JiraTask) (failed : Nat) : String :=
  let s := makeSpecificTaskStatus t
  if s == TaskSucceeded then "Succeeded: "
  else if s == TaskTimedOut then "Timed Out: "
  else if s == TaskSystemFailed then "System Failure: "
  else if s == TaskSetupFailed then "Setup Failure: "
  else if failed == 1 then "Failure: "
  else if failed > 1 then "Failures: "
  else "Failed: "

/-- Index of the last occurrence of a character, as `strings.LastIndex`
returns it (none standing for `-1`). -/
def lastIndexOf (c : Char) : List Char → Option Nat
  | [] => none
  | x :: xs =>
    match lastIndexOf c xs with
    | some i => some (i + 1)
    | none => if x == c then some 0 else none

/-- Embedding of `cleanTestName` (`task_jira.go` lines 329-345): keep the last
component of a unix or windows path, re-trying after stripping a trailing
separator. -/
def cleanTestNameAux : List Char → List Char
  | [] => []
  | x :: xs =>
    match lastIndexOf '/' (x :: xs) with
    | some i =>
      if i == xs.length then cleanTestNameAux (x :: xs).dropLast
      else (x :: xs).drop (i + 1)
    | none =>
      match lastIndexOf '\\' (x :: xs) with
      | some j =>
        if j == xs.length then cleanTestNameAux (x :: xs).dropLast
        else (x :: xs).drop (j + 1)
      | none => x :: xs
termination_by l => l.length
decreasing_by all_goals simp [List.length_dropLast]

def cleanTestName (s : String) : String :=
  String.mk (cleanTestNameAux s.data)

/-- Character-wise truncation, the model of the Go slice `s[:n]`. -/
def strTake (s : String) (n : Nat) : String :=
  String.mk (s.data.take n)

/-- The final clamp of `getSummary` (`task_jira.go` lines 222-225). -/
def capTitle (s : String) : String :=
  if s.length > jiraMaxTitleLength then strTake s jiraMaxTitleLength else s

/-- The cleaned names of the failed test results, in order (`task_jira.go`
lines 175-179). -/
def failedTestNames (t : JiraTask) : List String :=
  (t.localTestResults.filter (fun r => r.status == TestFailedStatus)).map
    (fun r => cleanTestName r.testFile)

/-- The part of the summary written before the failed-test clause: prefix,
display name (the display task's when present), build variant, project and
7+1-character revision hash (`task_jira.go` lines 181-194). -/
def jiraSummaryBase (d : JiraTemplateData) : String :=
  let name :=
    match d.task.displayTaskName with
    | some n => n
    | none => d.task.displayName
  summaryPrefixOf d.task (failedTestNames d.task).length ++ name ++ " on " ++
    d.build.displayName ++ " " ++ "[" ++ d.project.displayName ++ " @ " ++
    strTake d.version.revision 8 ++ "] "

/-- The `toPrint` selection loop (`task_jira.go` lines 205-211): a test name
is kept while the remaining budget stays positive, and the budget shrinks by
`len(name) + 2` at every step regardless. -/
def pickTests : Int → List String → List String
  | _, [] => []
  | remaining, f :: fs =>
    if remaining - f.length > 0 then f :: pickTests (remaining - f.length - 2) fs
    else pickTests (remaining - f.length - 2) fs

/-- Embedding of `jiraBuilder.getSummary` (`task_jira.go` lines 171-226),
including the early return at line 202 that bypasses the final clamp when the
remaining budget cannot fit the first failed test name. -/
def getSummary (d : JiraTemplateData) : Except String String :=
  if d.version.revision.length < 8 then .error ("slice bounds out of range")
  else
    let failed := failedTestNames d.task
    let base := jiraSummaryBase d
    match failed with
    | [] => .ok (capTitle base)
    | f0 :: _ =>
      let remaining : Int := (jiraMaxTitleLength : Int) - base.length - 10
      if remaining < (f0.length : Int) then .ok base
      else
        let toPrint := pickTests remaining failed
        let more : String :=
          if failed.length - toPrint.length > 0 then
            " +" ++ toString (failed.length - toPrint.length) ++ " more"
          else ""
        .ok (capTitle (base ++ "(" ++ String.intercalate ", " toPrint ++ more ++ ")"))

/-- A task with a long display name and one failed test: the early return of
`getSummary` applies and skips the truncation. -/
def jiraOverflowData : JiraTemplateData :=
  { task := { displayName := String.mk (List.replicate 300 'a'), status := TaskFailed,
              localTestResults := [{ status := TestFailedStatus, testFile := "t" }] },
    build := { displayName := "B" },
    project := { displayName := "P" },
    version := { revision := "abcdefgh" } }

/-- A healthy fixture for the amended C7: no failed tests, short names. -/
def jiraGoodData : JiraTemplateData :=
  { task := { displayName := "compile", status := TaskFailed },
    build := { displayName := "linux" },
    project := { displayName := "P" },
    version := { revision := "abcdefgh" } }

/-- A failed task with `details.type == "system"` AND `details.timed_out`. -/
def systemTimedOutTask : JiraTask :=
  { status := TaskFailed,
    details := { type := CommandTypeSystem, timedOut := true } }

/-! ## Blocked state (`Task.BlockedState`)

Modelled from the spec: `model/task/task.go` is not in the source tree.  Spec
section 4.1 describes a transitive walk of `depends_on` with a visited set
keyed by task id that fails with `"Dependency cycle detected"` on re-entry,
returning `"blocked"` when a dependency is finished in a status that cannot
satisfy its predicate, `"pending"` when a dependency is unfinished, `""`
otherwise, with a pending dependency propagating as pending unless a stronger
blocked is found in a sibling subtree.  The recursion is embedded with a fuel
parameter large enough for every store (`blockedState_total` shows the fuel
never runs out on resolvable stores). -/

/-- Modelled from the spec: combination of two dependency states: `"blocked"` dominates `"pending"`
dominates `""`. -/
def combineState (a b : String) : String :=
  if a == "blocked" || b == "blocked" then "blocked"
  else if a == "pending" || b == "pending" then "pending"
  else ""

/-- Modelled from the spec: the direct contribution of one resolved dependency: a finished dependency
that cannot satisfy its required predicate blocks, a finished satisfying one
contributes nothing, an unfinished one is pending. -/
def directContrib (d : Dependency) (u : Task) : String :=
  if isFinishedStatus u.status then
    if satisfiesDependency d.status u.status then "" else "blocked"
  else "pending"

/-- Modelled from the spec: the walk over one task's `depends_on` list: resolve each entry, recurse
through `recur`, and combine the subtree state with the entry's direct
contribution; errors abort the walk. -/
def blockedStateDeps (recur : Task → Except String String) (store : List Task) :
    List Dependency → Except String String
  | [] => .ok ("")
  | d :: ds =>
    match lookupTask store d.taskId with
    | none => .error ("dependency task not found: " ++ d.taskId)
    | some u =>
      match recur u with
      | .error e => .error e
      | .ok sub =>
        match blockedStateDeps recur store ds with
        | .error e => .error e
        | .ok rest => .ok (combineState (combineState sub (directContrib d u)) rest)

/-- Modelled from the spec: the recursive walk of `BlockedState` carrying the
path of visited task ids; re-entering a task on the current path is the
dependency cycle error. -/
def blockedStateAux (store : List Task) (fuel : Nat) (path : List String) (t : Task) :
    Except String String :=
  match fuel with
  | 0 => .error ("out of fuel")
  | f + 1 =>
    if t.id ∈ path then .error ("Dependency cycle detected")
    else blockedStateDeps (fun u => blockedStateAux store f (t.id :: path) u) store t.dependsOn

/-- Modelled from the spec: `Task.BlockedState()` (spec section 4.1). -/
def BlockedState (store : List Task) (t : Task) : Except String String :=
  blockedStateAux store (store.length + 1) [] t

/-- The dependency edge relation of a store: `a` depends on `b` when the task
stored under id `a` has a `depends_on` entry naming `b`. -/
def edgeRel (store : List Task) (a b : String) : Prop :=
  ∃ u d, lookupTask store a = some u ∧ d ∈ u.dependsOn ∧ d.taskId = b

/-- The task stored under id `a` has a dependency entry whose referenced task
is finished in a status that cannot satisfy the entry's predicate. -/
def violAt (store : List Task) (a : String) : Prop :=
  ∃ u d w, lookupTask store a = some u ∧ d ∈ u.dependsOn ∧
    lookupTask store d.taskId = some w ∧ isFinishedStatus w.status = true ∧
    satisfiesDependency d.status w.status = false

/-- Some dependency in the transitive closure of `t` is finished in a status
that cannot satisfy its required predicate. -/
def blockedReach (store : List Task) (t : Task) : Prop :=
  ∃ a, Relation.ReflTransGen (edgeRel store) t.id a ∧ violAt store a

/-- Some dependency in the transitive closure of `t` is unfinished. -/
def pendingReach (store : List Task) (t : Task) : Prop :=
  ∃ b w, Relation.TransGen (edgeRel store) t.id b ∧ lookupTask store b = some w ∧
    isFinishedStatus w.status = false

/-- Every `depends_on` entry of every stored task resolves in the store. -/
def depsResolve (store : List Task) : Prop :=
  ∀ u ∈ store, ∀ d ∈ u.dependsOn, ∃ w, lookupTask store d.taskId = some w

/-- The number of stored task ids not yet on the path: the measure that
bounds the fuel the walk can consume. -/
def unexplored (store : List Task) (path : List String) : Nat :=
  ((store.map Task.id).dedup.filter (fun a => a ∉ path)).length

/-! Concrete fixtures from `TestBlockedState` and `TestCircularDependency`. -/

def blockedT1 : Task := { id := "t1", dependsOn := [⟨"t2", TaskSucceeded⟩] }

def blockedT2 : Task :=
  { id := "t2", status := TaskFailed, dependsOn := [⟨"t3", TaskFailed⟩] }

def blockedT3 : Task :=
  { id := "t3", status := TaskUnstarted, dependsOn := [⟨"t4", AllStatuses⟩] }

def blockedT4 : Task := { id := "t4", status := TaskSucceeded }

def blockedStore : List Task := [blockedT1, blockedT2, blockedT3, blockedT4]

def circularT1 : Task :=
  { id := "t1", status := TaskSucceeded, activated := true,
    dependsOn := [⟨"t2", TaskSucceeded⟩] }

def circularT2 : Task :=
  { id := "t2", status := TaskSucceeded, activated := true,
    dependsOn := [⟨"t1", TaskSucceeded⟩] }

def circularStore : List Task := [circularT1, circularT2]

/-- Rank of the tasks of the acyclic `blockedStore`, decreasing along
dependency edges. -/
def blockedRank (a : String) : Nat :=
  if a = "t1" then 3 else if a = "t2" then 2 else if a = "t3" then 1 else 0

/-! ## Theorems -/

/-- C1: `DependenciesMet` evaluates each `depends_on` entry by the predicate
mapping — `"success"` iff the referenced task succeeded, `"failed"` iff it
failed, `"*"` iff it is in a finished status, `""` defaulting to `"success"` —
and on the test fixture (`td1..td3` succeeded, `td4, td5` failed, entries
`[(td1,success),(td2,success),(td3,""),(td4,failed),(td5,"*")]`) it returns
`(true, nil)`. -/
theorem dependenciesMet_predicates :
    (∀ s : String, satisfiesDependency TaskSucceeded s = (s == TaskSucceeded)) ∧
    (∀ s : String, satisfiesDependency TaskFailed s = (s == TaskFailed)) ∧
    (∀ s : String, satisfiesDependency AllStatuses s = isFinishedStatus s) ∧
    (∀ s : String, satisfiesDependency "" s = satisfiesDependency TaskSucceeded s) ∧
    (dependenciesMet depStore depTask []).map Prod.fst = .ok true := by
  refine ⟨fun s => rfl, fun s => ?_, fun s => ?_, fun s => rfl, rfl⟩
  · simp [satisfiesDependency, TaskFailed, TaskSucceeded, AllStatuses]
  · simp [satisfiesDependency, AllStatuses, TaskSucceeded, TaskFailed]

/-- C9: with a non-empty `depends_on` and an empty cache,
`AllDependenciesSatisfied` returns `(false, error)` without consulting the
store (the definition takes no store at all), while with an empty
`depends_on` it returns `(true, nil)` even on an empty cache. -/
theorem allDependenciesSatisfied_empty_cache (t : Task) (cache : List Task) :
    (t.dependsOn ≠ [] → cache = [] →
      allDependenciesSatisfied t cache = (false, some ("dependency cache is empty"))) ∧
    (t.dependsOn = [] → allDependenciesSatisfied t cache = (true, none)) := by
  constructor
  · intro hdep hcache
    subst hcache
    simp [allDependenciesSatisfied, List.isEmpty_iff, hdep]
  · intro hdep
    simp [allDependenciesSatisfied, List.isEmpty_iff, hdep]

/-- Witness for C9 at the fixture of `TestDependenciesMet`: `t1` with the five
dependencies and an empty cache errors, and the bare task `t1` with no
dependencies passes. -/
theorem allDependenciesSatisfied_empty_cache_witness :
    allDependenciesSatisfied depTask [] = (false, some ("dependency cache is empty")) ∧
    allDependenciesSatisfied { id := "t1" } [] = (true, none) :=
  ⟨(allDependenciesSatisfied_empty_cache depTask []).1 (by decide) rfl,
   (allDependenciesSatisfied_empty_cache { id := "t1" } []).2 rfl⟩

/-- C5: for `p > 0`, `SetPriority` sets the task's priority to `p`, raises
every task in the transitive closure of its `depends_on` to at least `p`
(never lowering an already higher priority) and leaves every task outside the
closure unchanged; on the test fixture `SetPriority(one, 1)` yields priorities
`one=1, two=5, three=1, four=1, five=1, six=0`. -/
theorem setPriority_propagates (store : List Task) (tid : String) (p : Int)
    (hp : 0 < p) :
    List.Forall₂ (fun u v =>
      (u.id = tid → v.priority = p) ∧
      (u.id ≠ tid → u.id ∈ recursiveDeps store tid → v.priority = max u.priority p) ∧
      (u.id ≠ tid → u.id ∉ recursiveDeps store tid → v = u))
      store (setPriority store tid p) ∧
    (setPriority priorityStore "one" 1).map Task.priority = [1, 5, 1, 1, 1, 0] ∧
    (setPriority priorityStore "one" 1).map Task.activated =
      [true, true, true, true, true, true] := by
  refine ⟨?_, rfl, rfl⟩
  unfold setPriority
  simp only
  rw [List.forall₂_map_right_iff, List.forall₂_same]
  intro u _
  refine ⟨?_, ?_, ?_⟩
  · intro hid
    simp [hid]
  · intro hid hmem
    have hid' : (u.id == tid) = false := by simp [hid]
    rw [hid']
    simp only [Bool.false_eq_true, if_false]
    by_cases hlt : u.priority < p
    · simp [hp, hmem, hlt, max_eq_right (le_of_lt hlt)]
    · simp [hp, hmem, hlt, max_eq_left (not_lt.mp hlt)]
  · intro hid hmem
    have hid' : (u.id == tid) = false := by simp [hid]
    rw [hid']
    simp [hmem]

/-- Witness for C5: the general part of `setPriority_propagates` applied to
the test fixture with `p = 1`. -/
theorem setPriority_propagates_witness :
    List.Forall₂ (fun u v =>
      (u.id = "one" → v.priority = 1) ∧
      (u.id ≠ "one" → u.id ∈ recursiveDeps priorityStore "one" → v.priority = max u.priority 1) ∧
      (u.id ≠ "one" → u.id ∉ recursiveDeps priorityStore "one" → v = u))
      priorityStore (setPriority priorityStore "one" 1) :=
  (setPriority_propagates priorityStore "one" 1 (by decide)).1

/-- C6: `SetTasksScheduledTime` only writes tasks whose `scheduled_time` is
zero, hence it is idempotent and a second call with a later timestamp leaves
every previously-set task unchanged and only fills in tasks that were still
zero; on the test fixture, stamping `t2, t3` with `31337` and then all three
with `99999999` leaves `t2, t3` at `31337` and sets only `t1`. -/
theorem setTasksScheduledTime_idempotent :
    (∀ (store : List Task) (ids : List String) (ts : Nat), ts ≠ 0 →
      setTasksScheduledTime (setTasksScheduledTime store ids ts) ids ts =
        setTasksScheduledTime store ids ts) ∧
    (∀ (store : List Task) (ids₁ : List String) (ts₁ : Nat) (ids₂ : List String) (ts₂ : Nat),
      List.Forall₂ (fun u v =>
          (u.scheduledTime ≠ 0 → v = u) ∧
          (u.scheduledTime = 0 →
            v = if u.id ∈ ids₂ then { u with scheduledTime := ts₂ } else u))
        (setTasksScheduledTime store ids₁ ts₁)
        (setTasksScheduledTime (setTasksScheduledTime store ids₁ ts₁) ids₂ ts₂)) ∧
    setTasksScheduledTime schedStore ["t2", "t3"] 31337 =
      [{ id := "t1" }, { id := "t2", scheduledTime := 31337 },
       { id := "t3", scheduledTime := 31337 }] ∧
    setTasksScheduledTime (setTasksScheduledTime schedStore ["t2", "t3"] 31337)
        ["t1", "t2", "t3"] 99999999 =
      [{ id := "t1", scheduledTime := 99999999 }, { id := "t2", scheduledTime := 31337 },
       { id := "t3", scheduledTime := 31337 }] := by
  refine ⟨?_, ?_, rfl, rfl⟩
  · intro store ids ts hts
    unfold setTasksScheduledTime
    rw [List.map_map]
    apply List.map_congr_left
    intro u _
    by_cases hc : u.id ∈ ids ∧ u.scheduledTime = 0
    · simp [Function.comp, hc.1, hc.2, hts]
    · have hc' : (decide (u.id ∈ ids) && (u.scheduledTime == 0)) = false := by
        rcases not_and_or.mp hc with h | h <;> simp [h]
      simp [Function.comp, hc']
  · intro store ids₁ ts₁ ids₂ ts₂
    generalize setTasksScheduledTime store ids₁ ts₁ = s₁
    unfold setTasksScheduledTime
    rw [List.forall₂_map_right_iff, List.forall₂_same]
    intro u _
    refine ⟨?_, ?_⟩
    · intro hu
      simp [hu]
    · intro hu
      by_cases hmem : u.id ∈ ids₂ <;> simp [hu, hmem]

/-- Witness for C6: idempotence of the first stamping call on the test
fixture. -/
theorem setTasksScheduledTime_idempotent_witness :
    setTasksScheduledTime (setTasksScheduledTime schedStore ["t2", "t3"] 31337)
        ["t2", "t3"] 31337 =
      setTasksScheduledTime schedStore ["t2", "t3"] 31337 :=
  setTasksScheduledTime_idempotent.1 schedStore ["t2", "t3"] 31337 (by decide)

/-- C4: on the `buildSuite` fixture (stored build `test`, subscriptions for
`outcome`, `success` and `failure` on build id `test`), a build state-change
event yields 0 notifications while `data.status` is `created`, exactly the
`outcome` and `success` notifications when it is `succeeded`, and exactly the
`outcome` and `failure` notifications when it is `failed` — including when the
stored build already moved on (last conjunct, mirroring the final case of
`TestAllTriggers`). -/
theorem notificationsFromEvent_build_lifecycle :
    notificationsFromEvent [{ id := "test", status := BuildCreated }] buildSubs
        (buildEvent BuildCreated) = .ok [] ∧
    notificationsFromEvent [{ id := "test", status := BuildSucceeded }] buildSubs
        (buildEvent BuildSucceeded) =
      .ok [notificationIdFor "event" "sub-outcome", notificationIdFor "event" "sub-success"] ∧
    notificationsFromEvent [{ id := "test", status := BuildFailed }] buildSubs
        (buildEvent BuildFailed) =
      .ok [notificationIdFor "event" "sub-outcome", notificationIdFor "event" "sub-failure"] ∧
    notificationsFromEvent [{ id := "test", status := BuildFailed }] buildSubs
        (buildEvent BuildCreated) = .ok [] :=
  ⟨rfl, rfl, rfl, rfl⟩

/-- C10: looking up a notification id that is not in the collection returns
`(nil, nil)` — no notification and no error — rather than a NotFound error,
while a non-NotFound store failure is passed through to the caller. -/
theorem notificationFind_absent_id (store : List Notification) (id : String)
    (habsent : ∀ n ∈ store, n.id ≠ id) :
    notificationFind store none id = (none, none) ∧
    (∀ msg : String,
      notificationFind store (some msg) id = (some { id := "" }, some (.other msg))) := by
  constructor
  · have hfind : store.find? (fun n => n.id == id) = none := by
      rw [List.find?_eq_none]
      intro n hn
      simp [habsent n hn]
    simp [notificationFind, findOneQ, hfind]
  · intro msg
    rfl

/-- Witness for C10: a one-element collection holding `n1` and a lookup of the
absent id `n2`. -/
theorem notificationFind_absent_id_witness :
    notificationFind [{ id := "n1" }] none "n2" = (none, none) :=
  (notificationFind_absent_id [{ id := "n1" }] "n2" (by decide)).1

/-- The clamped title never exceeds 254 characters. -/
theorem capTitle_length_le (s : String) : (capTitle s).length ≤ jiraMaxTitleLength := by
  unfold capTitle
  split
  · show (s.data.take jiraMaxTitleLength).length ≤ jiraMaxTitleLength
    simp [List.length_take]
  · omega

set_option maxRecDepth 8192 in
/-- Counterexample for C7: on `jiraOverflowData` the summary is returned
through the early exit of `task_jira.go` line 202 without truncation, and its
length is 330 > 254. -/
theorem getSummary_overflow_counterexample :
    getSummary jiraOverflowData = .ok (jiraSummaryBase jiraOverflowData) ∧
    254 < (jiraSummaryBase jiraOverflowData).length := by
  exact ⟨rfl, by decide⟩

/-- C7 (amended): the summary built by `getSummary` has length at most 254
characters, truncated from the end, provided the early-exit branch is not
taken — that is, whenever there are no failed tests, or the first failed test
name fits the remaining budget `254 − len(base) − 10`. -/
theorem getSummary_length_le (d : JiraTemplateData) (s : String)
    (hbudget : ∀ f0 fs, failedTestNames d.task = f0 :: fs →
      (f0.length : Int) ≤ (jiraMaxTitleLength : Int) - (jiraSummaryBase d).length - 10)
    (h : getSummary d = .ok s) : s.length ≤ 254 := by
  unfold getSummary at h
  split at h
  · exact absurd h (by simp)
  · rcases hf : failedTestNames d.task with _ | ⟨f0, fs⟩
    · simp only [hf, Except.ok.injEq] at h
      subst h
      exact capTitle_length_le (jiraSummaryBase d)
    · have hb := hbudget f0 fs hf
      simp only [hf] at h
      rw [if_neg (by omega)] at h
      simp only [Except.ok.injEq] at h
      subst h
      exact capTitle_length_le _

/-- Witness for the amended C7 at `jiraGoodData`. -/
theorem getSummary_length_le_witness :
    ("Failed: compile on linux [P @ abcdefgh] " : String).length ≤ 254 :=
  getSummary_length_le jiraGoodData _
    (fun _ _ hcons => nomatch hcons) rfl

/-- Counterexample for C8: on a finished task with `details.type = "system"`
and `timed_out = true`, the jira mapping returns the timed-out status (the
switch of `makeSpecificTaskStatus` tests `TimedOut` first), not
`system-failed`, and the prefix is `"Timed Out: "`, not
`"System Failure: "`. -/
theorem makeSpecificTaskStatus_system_counterexample :
    systemTimedOutTask.details.type = CommandTypeSystem ∧
    makeSpecificTaskStatus systemTimedOutTask = TaskTimedOut ∧
    makeSpecificTaskStatus systemTimedOutTask ≠ TaskSystemFailed ∧
    summaryPrefixOf systemTimedOutTask 0 = "Timed Out: " ∧
    summaryPrefixOf systemTimedOutTask 0 ≠ "System Failure: " := by
  decide

/-- C8 (amended): for a finished task with `details.type = "system"` that did
not succeed and did not time out, the jira mapping classifies the task as
system-failed and the summary prefix is `"System Failure: "` (for every failed
count). -/
theorem makeSpecificTaskStatus_system (t : JiraTask) (n : Nat)
    (hsys : t.details.type = CommandTypeSystem)
    (hnotsucc : t.status ≠ TaskSucceeded)
    (hnottimeout : t.details.timedOut = false) :
    makeSpecificTaskStatus t = TaskSystemFailed ∧
    summaryPrefixOf t n = "System Failure: " := by
  have hstatus : makeSpecificTaskStatus t = TaskSystemFailed := by
    unfold makeSpecificTaskStatus
    simp [hsys, hnotsucc, hnottimeout, CommandTypeSystem]
  refine ⟨hstatus, ?_⟩
  unfold summaryPrefixOf
  rw [hstatus]
  rfl

/-- Witness for the amended C8: a failed system task that did not time out. -/
theorem makeSpecificTaskStatus_system_witness :
    makeSpecificTaskStatus { status := TaskFailed, details := { type := CommandTypeSystem } } =
      TaskSystemFailed ∧
    summaryPrefixOf { status := TaskFailed, details := { type := CommandTypeSystem } } 3 =
      "System Failure: " :=
  makeSpecificTaskStatus_system _ 3 rfl (by decide) rfl

theorem lookupTask_id {store : List Task} {a : String} {u : Task}
    (h : lookupTask store a = some u) : u.id = a ∧ u ∈ store := by
  unfold lookupTask at h
  refine ⟨?_, List.mem_of_find?_eq_some h⟩
  have := List.find?_some h
  simpa using this

theorem lookupTask_self {store : List Task} {a : String} {u : Task}
    (h : lookupTask store a = some u) : lookupTask store u.id = some u := by
  rw [(lookupTask_id h).1]
  exact h

theorem blockedStateAux_ok_inv {store : List Task} {fuel : Nat} {path : List String}
    {t : Task} {s : String} (h : blockedStateAux store fuel path t = .ok s) :
    ∃ f, fuel = f + 1 ∧ t.id ∉ path ∧
      blockedStateDeps (fun u => blockedStateAux store f (t.id :: path) u) store
        t.dependsOn = .ok s := by
  match fuel with
  | 0 => exact absurd h (by simp [blockedStateAux])
  | f + 1 =>
    by_cases hp : t.id ∈ path
    · rw [blockedStateAux, if_pos hp] at h
      cases h
    · rw [blockedStateAux, if_neg hp] at h
      exact ⟨f, rfl, hp, h⟩

theorem blockedStateDeps_ok_mem {recur : Task → Except String String}
    {store : List Task} :
    ∀ {ds : List Dependency} {s : String}, blockedStateDeps recur store ds = .ok s →
      ∀ d ∈ ds, ∃ u su, lookupTask store d.taskId = some u ∧ recur u = .ok su := by
  intro ds
  induction ds with
  | nil =>
    intro s _ d hd
    cases hd
  | cons d0 ds ih =>
    intro s h d hd
    rw [blockedStateDeps] at h
    rcases hl : lookupTask store d0.taskId with _ | u <;> simp only [hl] at h
    · exact absurd h (by simp)
    · rcases hr : recur u with e | su <;> simp only [hr] at h
      · exact absurd h (by simp)
      · rcases hrest : blockedStateDeps recur store ds with e | rest <;> simp only [hrest] at h
        · exact absurd h (by simp)
        · rcases List.mem_cons.mp hd with rfl | hd'
          · exact ⟨u, su, hl, hr⟩
          · exact ih hrest d hd'

theorem blockedState_chain {store : List Task} {a b : String}
    (hreach : Relation.ReflTransGen (edgeRel store) a b) :
    ∀ {fuel : Nat} {path : List String} {ta : Task} {s : String},
      lookupTask store a = some ta →
      blockedStateAux store fuel path ta = .ok s →
      ∃ fuel' path' tb s', lookupTask store b = some tb ∧
        blockedStateAux store fuel' path' tb = .ok s' ∧ path ⊆ path' := by
  induction hreach with
  | refl =>
    intro fuel path ta s hla h
    exact ⟨fuel, path, ta, s, hla, h, List.Subset.refl _⟩
  | tail _ hbc ih =>
    intro fuel path ta s hla h
    obtain ⟨f', p', tb, s', hlb, hok, hsub⟩ := ih hla h
    obtain ⟨u, d, hlu, hd, hdid⟩ := hbc
    rw [hlu] at hlb
    have hub : u = tb := Option.some.inj hlb
    subst hub
    obtain ⟨f, rfl, _, hdeps⟩ := blockedStateAux_ok_inv hok
    obtain ⟨w, sw, hlw, hw⟩ := blockedStateDeps_ok_mem hdeps d hd
    rw [hdid] at hlw
    exact ⟨f, u.id :: p', w, sw, hlw, hw, hsub.trans (List.subset_cons_self _ _)⟩

/-- With a cycle reachable from `t`, the walk can never return a state. -/
theorem blockedState_cycle_no_ok {store : List Task} {t : Task} {u : String}
    (hc : lookupTask store t.id = some t)
    (hreach : Relation.ReflTransGen (edgeRel store) t.id u)
    (hcyc : Relation.TransGen (edgeRel store) u u) :
    ∀ (fuel : Nat) (path : List String) (s : String),
      blockedStateAux store fuel path t ≠ .ok s := by
  intro fuel path s h
  obtain ⟨f1, p1, tu, s1, hlu, hok1, _⟩ := blockedState_chain hreach hc h
  obtain ⟨f, rfl, _, hdeps⟩ := blockedStateAux_ok_inv hok1
  obtain ⟨w, huw, hwu⟩ := Relation.TransGen.head'_iff.mp hcyc
  obtain ⟨u', d, hlu', hd, hdid⟩ := huw
  rw [hlu'] at hlu
  have huu' : u' = tu := Option.some.inj hlu
  subst huu'
  have hid : u'.id = u := (lookupTask_id hlu').1
  obtain ⟨tw, sw, hlw, hokw⟩ := blockedStateDeps_ok_mem hdeps d hd
  rw [hdid] at hlw
  obtain ⟨f2, p2, tu2, s2, hlu2, hok2, hsub2⟩ := blockedState_chain hwu hlw hokw
  obtain ⟨f3, _, hnp2, _⟩ := blockedStateAux_ok_inv hok2
  apply hnp2
  rw [(lookupTask_id hlu2).1]
  exact hsub2 (by rw [← hid]; exact List.mem_cons_self _ _)

theorem unexplored_cons {store : List Task} {path : List String} {a : String}
    (hmem : a ∈ store.map Task.id) (hnp : a ∉ path) :
    unexplored store (a :: path) + 1 = unexplored store path := by
  unfold unexplored
  have hnd : ((store.map Task.id).dedup).Nodup := List.nodup_dedup _
  have hma : a ∈ (store.map Task.id).dedup := List.mem_dedup.mpr hmem
  have h1 : (store.map Task.id).dedup.filter (fun x => x ∉ a :: path) =
      ((store.map Task.id).dedup.filter (fun x => x ∉ path)).filter (fun x => x ≠ a) := by
    rw [List.filter_filter]
    apply List.filter_congr
    intro x _
    by_cases hxa : x = a <;> by_cases hxp : x ∈ path <;>
      simp [hxa, hxp, List.mem_cons]
  have h2 : ((store.map Task.id).dedup.filter (fun x => x ∉ path)).Nodup :=
    hnd.filter _
  have h3 : a ∈ (store.map Task.id).dedup.filter (fun x => x ∉ path) :=
    List.mem_filter.mpr ⟨hma, by simp [hnp]⟩
  have h4 : ((store.map Task.id).dedup.filter (fun x => x ∉ path)).filter (fun x => x ≠ a) =
      ((store.map Task.id).dedup.filter (fun x => x ∉ path)).erase a := by
    rw [h2.erase_eq_filter]
    apply List.filter_congr
    intro x _
    rw [Bool.eq_iff_iff]
    simp
  rw [h1, h4, List.length_erase_of_mem h3]
  have h5 : 0 < ((store.map Task.id).dedup.filter (fun x => x ∉ path)).length :=
    List.length_pos.mpr (List.ne_nil_of_mem h3)
  omega

theorem blockedState_total {store : List Task} (hres : depsResolve store) :
    ∀ (fuel : Nat) (path : List String) (t : Task), t ∈ store →
      lookupTask store t.id = some t →
      unexplored store path + 1 ≤ fuel →
      (∃ s, blockedStateAux store fuel path t = .ok s) ∨
        blockedStateAux store fuel path t = .error ("Dependency cycle detected") := by
  intro fuel
  induction fuel with
  | zero =>
    intro path t _ _ hfuel
    omega
  | succ f ih =>
    intro path t hmem hself hfuel
    by_cases hp : t.id ∈ path
    · right
      rw [blockedStateAux, if_pos hp]
    · have hchild : unexplored store (t.id :: path) + 1 ≤ f := by
        have h1 := unexplored_cons (List.mem_map_of_mem Task.id hmem) hp
        omega
      rw [blockedStateAux, if_neg hp]
      have hds : ∀ d ∈ t.dependsOn, ∃ w, lookupTask store d.taskId = some w :=
        hres t hmem
      clear hfuel hself
      revert hds
      generalize t.dependsOn = ds
      induction ds with
      | nil =>
        intro _
        left
        exact ⟨"", rfl⟩
      | cons d0 ds ihds =>
        intro hds
        obtain ⟨w, hlw⟩ := hds d0 (List.mem_cons_self _ _)
        have hwmem : w ∈ store := (lookupTask_id hlw).2
        have hwself : lookupTask store w.id = some w := lookupTask_self hlw
        rcases ih (t.id :: path) w hwmem hwself hchild with ⟨sw, hsw⟩ | herr
        · rcases ihds (fun d hd => hds d (List.mem_cons_of_mem _ hd)) with ⟨srest, hrest⟩ | herr2
          · left
            refine ⟨combineState (combineState sw (directContrib d0 w)) srest, ?_⟩
            rw [blockedStateDeps]
            simp only [hlw, hsw, hrest]
          · right
            rw [blockedStateDeps]
            simp only [hlw, hsw, herr2]
        · right
          rw [blockedStateDeps]
          simp only [hlw, herr]

/-- C2: for every store and task from which a dependency cycle is reachable
(some `u` reachable from `t` lies on a cycle), `BlockedState` terminates (the
embedded walk is a total function) and returns the error
`"Dependency cycle detected"` instead of a state, provided the task is stored
under its id and every `depends_on` entry of the store resolves. -/
theorem blockedState_cycle_detected (store : List Task) (t : Task) (u : String)
    (hc : lookupTask store t.id = some t) (hres : depsResolve store)
    (hreach : Relation.ReflTransGen (edgeRel store) t.id u)
    (hcyc : Relation.TransGen (edgeRel store) u u) :
    BlockedState store t = .error ("Dependency cycle detected") := by
  rcases blockedState_total hres (store.length + 1) [] t (lookupTask_id hc).2 hc
      (by
        have h1 : unexplored store [] ≤ (store.map Task.id).dedup.length := by
          unfold unexplored
          exact List.length_filter_le _ _
        have h2 : ((store.map Task.id).dedup).length ≤ (store.map Task.id).length :=
          (List.dedup_sublist _).length_le
        simp only [List.length_map] at h2
        omega) with
    ⟨s, hs⟩ | herr
  · exact absurd hs (blockedState_cycle_no_ok hc hreach hcyc _ _ s)
  · exact herr

/-- Witness for C2 at the `TestCircularDependency` fixture: `t1` and `t2`
depend on each other and `BlockedState(t1)` fails with the cycle error. -/
theorem blockedState_cycle_detected_witness :
    BlockedState circularStore circularT1 = .error ("Dependency cycle detected") := by
  have he12 : edgeRel circularStore "t1" "t2" :=
    ⟨circularT1, ⟨"t2", TaskSucceeded⟩, rfl, by simp [circularT1], rfl⟩
  have he21 : edgeRel circularStore "t2" "t1" :=
    ⟨circularT2, ⟨"t1", TaskSucceeded⟩, rfl, by simp [circularT2], rfl⟩
  refine blockedState_cycle_detected circularStore circularT1 "t1" rfl ?_
    Relation.ReflTransGen.refl
    (Relation.TransGen.head he12 (Relation.TransGen.single he21))
  intro v hv d hd
  fin_cases hv <;> fin_cases hd <;> exact ⟨_, rfl⟩

theorem directContrib_blocked (d : Dependency) (u : Task) :
    directContrib d u = "blocked" ↔
      (isFinishedStatus u.status = true ∧
        satisfiesDependency d.status u.status = false) := by
  unfold directContrib
  cases hfin : isFinishedStatus u.status <;>
    cases hsat : satisfiesDependency d.status u.status <;> simp

theorem directContrib_pending (d : Dependency) (u : Task) :
    directContrib d u = "pending" ↔ isFinishedStatus u.status = false := by
  unfold directContrib
  cases hfin : isFinishedStatus u.status <;>
    cases hsat : satisfiesDependency d.status u.status <;> simp

theorem directContrib_range (d : Dependency) (u : Task) :
    directContrib d u = "blocked" ∨ directContrib d u = "pending" ∨
      directContrib d u = "" := by
  unfold directContrib
  cases isFinishedStatus u.status <;>
    cases satisfiesDependency d.status u.status <;> simp

theorem combineState_three {a b c : String}
    (ha : a = "blocked" ∨ a = "pending" ∨ a = "")
    (hb : b = "blocked" ∨ b = "pending" ∨ b = "")
    (hc : c = "blocked" ∨ c = "pending" ∨ c = "") :
    (combineState (combineState a b) c = "blocked" ↔
      (a = "blocked" ∨ b = "blocked" ∨ c = "blocked")) ∧
    (combineState (combineState a b) c = "pending" ↔
      (¬(a = "blocked" ∨ b = "blocked" ∨ c = "blocked") ∧
        (a = "pending" ∨ b = "pending" ∨ c = "pending"))) ∧
    (combineState (combineState a b) c = "blocked" ∨
      combineState (combineState a b) c = "pending" ∨
      combineState (combineState a b) c = "") := by
  rcases ha with rfl | rfl | rfl <;> rcases hb with rfl | rfl | rfl <;>
    rcases hc with rfl | rfl | rfl <;> exact (by decide)

theorem blockedReach_iff {store : List Task} {t : Task}
    (hc : lookupTask store t.id = some t) (hres : depsResolve store) :
    blockedReach store t ↔
      ∃ d ∈ t.dependsOn, ∃ u, lookupTask store d.taskId = some u ∧
        ((isFinishedStatus u.status = true ∧
            satisfiesDependency d.status u.status = false) ∨
          blockedReach store u) := by
  constructor
  · rintro ⟨v, hreach, hviol⟩
    rcases hreach.cases_head with rfl | ⟨c, hedge, hrest⟩
    · obtain ⟨u', d, w, hlu', hd, hlw, hfin, hsat⟩ := hviol
      rw [hc] at hlu'
      have heq : t = u' := Option.some.inj hlu'
      subst heq
      exact ⟨d, hd, w, hlw, Or.inl ⟨hfin, hsat⟩⟩
    · obtain ⟨u', d, hlu', hd, hdid⟩ := hedge
      rw [hc] at hlu'
      have heq : t = u' := Option.some.inj hlu'
      subst heq
      obtain ⟨uc, hluc⟩ := hres t (lookupTask_id hc).2 d hd
      refine ⟨d, hd, uc, hluc, Or.inr ⟨v, ?_, hviol⟩⟩
      rw [(lookupTask_id hluc).1, hdid]
      exact hrest
  · rintro ⟨d, hd, u, hlu, hcase⟩
    rcases hcase with ⟨hfin, hsat⟩ | ⟨v, hreach, hviol⟩
    · exact ⟨t.id, Relation.ReflTransGen.refl, t, d, u, hc, hd, hlu, hfin, hsat⟩
    · exact ⟨v, Relation.ReflTransGen.head
        ⟨t, d, hc, hd, (lookupTask_id hlu).1.symm⟩ hreach, hviol⟩

theorem pendingReach_iff {store : List Task} {t : Task}
    (hc : lookupTask store t.id = some t) (hres : depsResolve store) :
    pendingReach store t ↔
      ∃ d ∈ t.dependsOn, ∃ u, lookupTask store d.taskId = some u ∧
        (isFinishedStatus u.status = false ∨ pendingReach store u) := by
  constructor
  · rintro ⟨b, w, htrans, hlb, hunf⟩
    obtain ⟨c, hedge, hrest⟩ := Relation.TransGen.head'_iff.mp htrans
    obtain ⟨u', d, hlu', hd, hdid⟩ := hedge
    rw [hc] at hlu'
    have heq : t = u' := Option.some.inj hlu'
    subst heq
    rcases hrest.cases_head with rfl | ⟨c2, hedge2, hrest2⟩
    · refine ⟨d, hd, w, ?_, Or.inl hunf⟩
      rw [hdid]
      exact hlb
    · obtain ⟨uc, hluc⟩ := hres t (lookupTask_id hc).2 d hd
      refine ⟨d, hd, uc, hluc, Or.inr ⟨b, w, ?_, hlb, hunf⟩⟩
      rw [(lookupTask_id hluc).1, hdid]
      exact Relation.TransGen.head' hedge2 hrest2
  · rintro ⟨d, hd, u, hlu, hcase⟩
    have hedge : edgeRel store t.id u.id :=
      ⟨t, d, hc, hd, (lookupTask_id hlu).1.symm⟩
    rcases hcase with hunf | ⟨b, w, htrans, hlb, hunf⟩
    · exact ⟨u.id, u, Relation.TransGen.single hedge, lookupTask_self hlu, hunf⟩
    · exact ⟨b, w, Relation.TransGen.head hedge htrans, hlb, hunf⟩

theorem blockedStateDeps_classify {recur : Task → Except String String}
    {store : List Task} {B P : Task → Prop} :
    ∀ ds : List Dependency,
      (∀ d ∈ ds, ∃ u, lookupTask store d.taskId = some u ∧ ∃ su, recur u = .ok su ∧
        (su = "blocked" ↔ B u) ∧ (su = "pending" ↔ (¬ B u ∧ P u)) ∧
        (su = "blocked" ∨ su = "pending" ∨ su = "")) →
      ∃ s, blockedStateDeps recur store ds = .ok s ∧
        (s = "blocked" ↔ ∃ d ∈ ds, ∃ u, lookupTask store d.taskId = some u ∧
          (B u ∨ (isFinishedStatus u.status = true ∧
            satisfiesDependency d.status u.status = false))) ∧
        (s = "pending" ↔ (¬ (∃ d ∈ ds, ∃ u, lookupTask store d.taskId = some u ∧
            (B u ∨ (isFinishedStatus u.status = true ∧
              satisfiesDependency d.status u.status = false))) ∧
          (∃ d ∈ ds, ∃ u, lookupTask store d.taskId = some u ∧
            (P u ∨ isFinishedStatus u.status = false)))) ∧
        (s = "blocked" ∨ s = "pending" ∨ s = "") := by
  intro ds
  induction ds with
  | nil =>
    intro _
    refine ⟨"", rfl, by simp, by simp, Or.inr (Or.inr rfl)⟩
  | cons d0 ds ih =>
    intro hds
    obtain ⟨u, hlu, su, hsu, hsb, hsp, hsr⟩ := hds d0 (List.mem_cons_self _ _)
    obtain ⟨rest, hrest, hrb, hrp, hrr⟩ :=
      ih (fun d hd => hds d (List.mem_cons_of_mem _ hd))
    have h3 := combineState_three hsr (directContrib_range d0 u) hrr
    refine ⟨combineState (combineState su (directContrib d0 u)) rest, ?_, ?_, ?_, h3.2.2⟩
    · rw [blockedStateDeps]
      simp only [hlu, hsu, hrest]
    · rw [h3.1, hsb, directContrib_blocked, hrb, List.exists_mem_cons_iff]
      constructor
      · rintro (hb | hx | he)
        · exact Or.inl ⟨u, hlu, Or.inl hb⟩
        · exact Or.inl ⟨u, hlu, Or.inr hx⟩
        · exact Or.inr he
      · rintro (⟨u', hlu', hcase⟩ | he)
        · rw [hlu] at hlu'
          have heq : u = u' := Option.some.inj hlu'
          subst heq
          rcases hcase with hb | hx
          · exact Or.inl hb
          · exact Or.inr (Or.inl hx)
        · exact Or.inr (Or.inr he)
    · rw [h3.2.1, hsb, hsp, directContrib_blocked, directContrib_pending, hrb, hrp,
        List.exists_mem_cons_iff, List.exists_mem_cons_iff]
      constructor
      · rintro ⟨hnb, hps⟩
        refine ⟨?_, ?_⟩
        · rintro (⟨u', hlu', hcase⟩ | he)
          · rw [hlu] at hlu'
            have heq : u = u' := Option.some.inj hlu'
            subst heq
            rcases hcase with hb | hx
            · exact hnb (Or.inl hb)
            · exact hnb (Or.inr (Or.inl hx))
          · exact hnb (Or.inr (Or.inr he))
        · rcases hps with ⟨_, hpu⟩ | hfin | ⟨_, hep⟩
          · exact Or.inl ⟨u, hlu, Or.inl hpu⟩
          · exact Or.inl ⟨u, hlu, Or.inr hfin⟩
          · exact Or.inr hep
      · rintro ⟨hnb, hps⟩
        refine ⟨?_, ?_⟩
        · rintro (hb | hx | he)
          · exact hnb (Or.inl ⟨u, hlu, Or.inl hb⟩)
          · exact hnb (Or.inl ⟨u, hlu, Or.inr hx⟩)
          · exact hnb (Or.inr he)
        · rcases hps with ⟨u', hlu', hcase⟩ | hep
          · rw [hlu] at hlu'
            have heq : u = u' := Option.some.inj hlu'
            subst heq
            rcases hcase with hpu | hfin
            · exact Or.inl ⟨fun hb => hnb (Or.inl ⟨u, hlu, Or.inl hb⟩), hpu⟩
            · exact Or.inr (Or.inl hfin)
          · exact Or.inr (Or.inr ⟨fun he => hnb (Or.inr he), hep⟩)

theorem blockedStateAux_classify {store : List Task} (hres : depsResolve store) :
    ∀ (fuel : Nat) (path : List String) (t : Task), t ∈ store →
      lookupTask store t.id = some t →
      unexplored store path + 1 ≤ fuel →
      (∀ v, Relation.ReflTransGen (edgeRel store) t.id v →
        ¬ Relation.TransGen (edgeRel store) v v) →
      (∀ v, Relation.ReflTransGen (edgeRel store) t.id v → v ∉ path) →
      ∃ s, blockedStateAux store fuel path t = .ok s ∧
        (s = "blocked" ↔ blockedReach store t) ∧
        (s = "pending" ↔ (¬ blockedReach store t ∧ pendingReach store t)) ∧
        (s = "blocked" ∨ s = "pending" ∨ s = "") := by
  intro fuel
  induction fuel with
  | zero =>
    intro path t _ _ hfuel
    omega
  | succ f ih =>
    intro path t hmem hself hfuel hacyc hpath
    have hp : t.id ∉ path := hpath t.id Relation.ReflTransGen.refl
    have hchild : unexplored store (t.id :: path) + 1 ≤ f := by
      have h1 := unexplored_cons (List.mem_map_of_mem Task.id hmem) hp
      omega
    have hkids : ∀ d ∈ t.dependsOn, ∃ u, lookupTask store d.taskId = some u ∧
        ∃ su, (fun u => blockedStateAux store f (t.id :: path) u) u = .ok su ∧
          (su = "blocked" ↔ blockedReach store u) ∧
          (su = "pending" ↔ (¬ blockedReach store u ∧ pendingReach store u)) ∧
          (su = "blocked" ∨ su = "pending" ∨ su = "") := by
      intro d hd
      obtain ⟨u, hlu⟩ := hres t hmem d hd
      have humem : u ∈ store := (lookupTask_id hlu).2
      have huself : lookupTask store u.id = some u := lookupTask_self hlu
      have hedge : edgeRel store t.id u.id :=
        ⟨t, d, hself, hd, (lookupTask_id hlu).1.symm⟩
      have hlift : ∀ v, Relation.ReflTransGen (edgeRel store) u.id v →
          Relation.ReflTransGen (edgeRel store) t.id v :=
        fun v hv => Relation.ReflTransGen.head hedge hv
      have hacyc_u : ∀ v, Relation.ReflTransGen (edgeRel store) u.id v →
          ¬ Relation.TransGen (edgeRel store) v v :=
        fun v hv => hacyc v (hlift v hv)
      have hpath_u : ∀ v, Relation.ReflTransGen (edgeRel store) u.id v →
          v ∉ t.id :: path := by
        intro v hv hmem'
        rcases List.mem_cons.mp hmem' with heq | hp'
        · have htv : Relation.TransGen (edgeRel store) t.id v :=
            Relation.TransGen.head' hedge hv
          rw [heq] at htv
          exact hacyc t.id Relation.ReflTransGen.refl htv
        · exact hpath v (hlift v hv) hp'
      obtain ⟨su, hsu, hiff⟩ := ih (t.id :: path) u humem huself hchild hacyc_u hpath_u
      exact ⟨u, hlu, su, hsu, hiff⟩
    obtain ⟨s, hdeps, hBiff, hPiff, hrange⟩ :=
      blockedStateDeps_classify t.dependsOn hkids
    refine ⟨s, ?_, ?_, ?_, hrange⟩
    · rw [blockedStateAux, if_neg hp]
      exact hdeps
    · rw [hBiff, blockedReach_iff hself hres]
      constructor
      · rintro ⟨d, hd, u, hlu, hcase⟩
        exact ⟨d, hd, u, hlu, hcase.symm⟩
      · rintro ⟨d, hd, u, hlu, hcase⟩
        exact ⟨d, hd, u, hlu, hcase.symm⟩
    · rw [hPiff, blockedReach_iff hself hres, pendingReach_iff hself hres]
      constructor
      · rintro ⟨hnb, d, hd, u, hlu, hcase⟩
        refine ⟨fun hcon => ?_, d, hd, u, hlu, hcase.symm⟩
        obtain ⟨d', hd', u', hlu', hcase'⟩ := hcon
        exact hnb ⟨d', hd', u', hlu', hcase'.symm⟩
      · rintro ⟨hnb, d, hd, u, hlu, hcase⟩
        refine ⟨fun hcon => ?_, d, hd, u, hlu, hcase.symm⟩
        obtain ⟨d', hd', u', hlu', hcase'⟩ := hcon
        exact hnb ⟨d', hd', u', hlu', hcase'.symm⟩

/-- C3: on a store whose dependency graph is acyclic from `t` (and whose
entries resolve, with `t` stored under its id), `BlockedState` returns
`"blocked"` when some dependency in `t`'s transitive closure is finished in a
status that cannot satisfy its required predicate, `"pending"` when no such
dependency exists but some dependency is unfinished, and `""` otherwise; on
the `TestBlockedState` fixture (`t1 → t2(success)`, failed `t2 → t3(failed)`,
unstarted `t3 → t4(*)`, succeeded `t4`) the results are `t4 → ""`,
`t3 → ""`, `t2 → "pending"`, `t1 → "blocked"`. -/
theorem blockedState_trichotomy (store : List Task) (t : Task)
    (hc : lookupTask store t.id = some t) (hres : depsResolve store)
    (hacyc : ∀ v, Relation.ReflTransGen (edgeRel store) t.id v →
      ¬ Relation.TransGen (edgeRel store) v v) :
    (blockedReach store t → BlockedState store t = .ok ("blocked")) ∧
    (¬ blockedReach store t → pendingReach store t →
      BlockedState store t = .ok ("pending")) ∧
    (¬ blockedReach store t → ¬ pendingReach store t →
      BlockedState store t = .ok ("")) ∧
    BlockedState blockedStore blockedT4 = .ok ("") ∧
    BlockedState blockedStore blockedT3 = .ok ("") ∧
    BlockedState blockedStore blockedT2 = .ok ("pending") ∧
    BlockedState blockedStore blockedT1 = .ok ("blocked") := by
  have hfuel : unexplored store [] + 1 ≤ store.length + 1 := by
    have h1 : unexplored store [] ≤ (store.map Task.id).dedup.length := by
      unfold unexplored
      exact List.length_filter_le _ _
    have h2 : ((store.map Task.id).dedup).length ≤ (store.map Task.id).length :=
      (List.dedup_sublist _).length_le
    simp only [List.length_map] at h2
    omega
  obtain ⟨s, hok, hB, hP, hrange⟩ :=
    blockedStateAux_classify hres (store.length + 1) [] t (lookupTask_id hc).2 hc
      hfuel hacyc (fun v _ => List.not_mem_nil v)
  refine ⟨?_, ?_, ?_, rfl, rfl, rfl, rfl⟩
  · intro hb
    have hs : s = "blocked" := hB.mpr hb
    unfold BlockedState
    rw [hok, hs]
  · intro hnb hp
    have hs : s = "pending" := hP.mpr ⟨hnb, hp⟩
    unfold BlockedState
    rw [hok, hs]
  · intro hnb hp
    have hs : s = "" := by
      rcases hrange with h | h | h
      · exact absurd (hB.mp h) hnb
      · exact absurd (hP.mp h).2 hp
      · exact h
    unfold BlockedState
    rw [hok, hs]

/-- Witness for C3: the general trichotomy applied to the `TestBlockedState`
fixture at `t1`, which has a blocking dependency (`t2` failed where success
was required). -/
theorem blockedState_trichotomy_witness :
    BlockedState blockedStore blockedT1 = .ok ("blocked") := by
  have hres : depsResolve blockedStore := by
    intro u hu d hd
    fin_cases hu <;> fin_cases hd <;> exact ⟨_, rfl⟩
  have hedges : ∀ a b, edgeRel blockedStore a b →
      (a = "t1" ∧ b = "t2") ∨ (a = "t2" ∧ b = "t3") ∨ (a = "t3" ∧ b = "t4") := by
    rintro a b ⟨u, d, hlu, hd, hdid⟩
    have hmem := (lookupTask_id hlu).2
    have hid := (lookupTask_id hlu).1
    fin_cases hmem <;> fin_cases hd <;>
      simp_all [blockedT1, blockedT2, blockedT3, blockedT4]
  have hstep : ∀ a b, edgeRel blockedStore a b → blockedRank b < blockedRank a := by
    intro a b h
    rcases hedges a b h with ⟨rfl, rfl⟩ | ⟨rfl, rfl⟩ | ⟨rfl, rfl⟩ <;> decide
  have htrans : ∀ a b, Relation.TransGen (edgeRel blockedStore) a b →
      blockedRank b < blockedRank a := by
    intro a b h
    induction h with
    | single h1 => exact hstep _ _ h1
    | tail _ h2 ih => exact lt_trans (hstep _ _ h2) ih
  have hacyc : ∀ v, Relation.ReflTransGen (edgeRel blockedStore) blockedT1.id v →
      ¬ Relation.TransGen (edgeRel blockedStore) v v :=
    fun v _ hvv => absurd (htrans v v hvv) (lt_irrefl _)
  have hbr : blockedReach blockedStore blockedT1 :=
    ⟨"t1", Relation.ReflTransGen.refl,
      blockedT1, ⟨"t2", TaskSucceeded⟩, blockedT2, rfl, by decide, rfl, rfl, rfl⟩
  exact (blockedState_trichotomy blockedStore blockedT1 rfl hres hacyc).1 hbr

end Evergreen
